import Mathlib

/-!
Shallow embedding of the VCC (Verifiable Completion Contracts) reference
implementation: the spec-integrity pass and the universal validators from
`spec-integrity-and-universal-validators.ts`, plus the convergence engine.

Modelling conventions:
* TypeScript optional fields (`x?: T`) become `Option T`.
* JavaScript numbers become `Rat` (the code only divides, compares and
  takes minima of small counts and thresholds).
* A JS `Set` is a list with insertion-order-preserving unique insert.
* Functions that can throw return `Except String _`; a `canValidate`
  that may throw is `Option Bool` with `none` for a thrown exception.
* JS `RegExp` uses on the configurable citation pattern are abstracted as
  a boolean-valued test function passed in; the fixed regexes of the
  source are implemented concretely, character by character.
-/

namespace VCC

abbrev ArtifactId := String

inductive Severity
  | must
  | should
  | may
deriving DecidableEq, Repr

inductive EvidenceType
  | auto
  | aiJudged
  | human
  | hybrid
deriving DecidableEq, Repr

/-- One `{ mediaType, uri }` entry of `ArtifactSpec.formats`. -/
structure FormatSpec where
  mediaType : String
  uri : String
deriving DecidableEq, Repr

/-- The `ArtifactSpec` from the source.  `dependsOn` is `Option` because the
integrity pass defensively repairs a missing/non-array value to `[]`.
The untyped `metadata` record is not modelled. -/
structure ArtifactSpec where
  artifactId : ArtifactId
  kind : String
  subtype : Option String := none
  description : String := ""
  formats : List FormatSpec
  required : Bool
  dependsOn : Option (List ArtifactId) := none
  owners : List String
  qualityLevel : String := "draft"
deriving DecidableEq, Repr

structure RelationshipSpec where
  relType : String
  fromId : ArtifactId
  toId : ArtifactId
  notes : Option String := none
deriving DecidableEq, Repr

/-- The criterion `type` tag, a closed set in the source. -/
inductive ACType
  | schema
  | structureType
  | traceability
  | consistency
  | rubricType
  | constraintType
  | execution
  | security
  | provenance
  | custom
deriving DecidableEq, Repr

/-- Rendering of `ACType` used in issue messages (the source interpolates
the raw string tag). -/
def acTypeStr : ACType → String
  | .schema => "schema"
  | .structureType => "structure"
  | .traceability => "traceability"
  | .consistency => "consistency"
  | .rubricType => "rubric"
  | .constraintType => "constraint"
  | .execution => "execution"
  | .security => "security"
  | .provenance => "provenance"
  | .custom => "custom"

/-- The opaque `rule: Record<string, unknown>` payload, modelled as the
typed fields the source actually reads (absent key = `none`). -/
structure Rule where
  rubricRef : Option String := none
  adapter : Option String := none
  requiredSections : Option (List String) := none
  minCitationCoverage : Option Rat := none
  citationPattern : Option String := none
  require : Option (List String) := none
  passThreshold : Option Rat := none
  description : Option String := none
  jsonSchema : Option String := none
deriving DecidableEq, Repr

structure EvidenceReq where
  required : Bool
  evidenceType : EvidenceType
  producedArtifact : Option ArtifactId := none
deriving DecidableEq, Repr

structure AcceptanceCriterionSpec where
  acId : String
  targetArtifacts : List ArtifactId
  type : ACType
  severity : Severity
  rule : Rule
  evidence : EvidenceReq
deriving DecidableEq, Repr

/-- The `RubricSpec` from the source: note there is no `text` field. -/
structure RubricSpec where
  rubricId : String
  scale : List Rat
  anchors : List (String × String)
  passThreshold : Rat
deriving DecidableEq, Repr

structure RequiredApprovalSpec where
  approvalType : String
  role : Option String := none
  optional : Option Bool := none
  rubricId : Option String := none
  passThreshold : Option Rat := none
deriving DecidableEq, Repr

structure GateSpec where
  gateId : String
  gateWhen : String
  requiredApprovals : List RequiredApprovalSpec
deriving DecidableEq, Repr

structure PackagingSpec where
  packageId : String
  inputs : List ArtifactId
  method : String
  format : String
  uri : String
  manifestRequired : Bool
deriving DecidableEq, Repr

structure DeliverySpec where
  deliveryId : String
  channel : String
  target : String
  uri : String
deriving DecidableEq, Repr

structure ProvenancePolicySpec where
  policyId : String
  require : List String
  strength : String
deriving DecidableEq, Repr

structure ResourceConstraints where
  maxIterations : Option Nat := none
  maxTimeMs : Option Nat := none
  maxCostUsd : Option Rat := none
  stagnationWindow : Option Nat := none
deriving DecidableEq, Repr

/-- The `VCCSpec` from the source.  The untyped `intent` / `riskControls`
records are not modelled (nothing in the integrity pass or validators
reads them). -/
structure VCCSpec where
  vccVersion : String
  id : String
  title : String
  summary : String := ""
  artifacts : List ArtifactSpec
  relationships : Option (List RelationshipSpec) := none
  acceptance : List AcceptanceCriterionSpec
  rubrics : Option (List RubricSpec) := none
  gates : Option (List GateSpec) := none
  packaging : List PackagingSpec
  delivery : List DeliverySpec := []
  provenancePolicy : ProvenancePolicySpec
  resourceConstraints : Option ResourceConstraints := none
deriving DecidableEq, Repr

/-- The `ProvenanceSignals` from the source. -/
structure ProvenanceSignals where
  inputsEnumerated : Bool
  toolingRecorded : Bool
  agentActionsLogged : Bool
  artifactHashesRecorded : Bool
  dependenciesRecorded : Bool
  parametersRecorded : Bool
  attestationSigned : Bool
deriving DecidableEq, Repr

structure AiJudgeArgs where
  rubricText : String
  content : String
  passThreshold : Rat
  acId : String

structure AiJudgeScore where
  score : Rat
  rationale : String
  model : Option String := none

/-- The `RunContext`.  The `ArtifactStore` is modelled by a pure fallible
`readText` plus a pure hashing function used for evidence digests
(the store's `writeText`/`hash` pair is effectful in the source; only
the digest recorded in the returned `ValidationResult` is observable
here, and it is modelled as a hash of the written contents). -/
structure RunContext where
  aiJudge : Option (AiJudgeArgs → AiJudgeScore) := none
  runId : String := ""
  team : List (String × String) := []
  readText : String → Except String String := fun _ => .error "no store"
  hashText : String → String := fun _ => ""
  provenanceSignals : Option ProvenanceSignals := none

inductive IssueSeverity
  | error
  | warning
deriving DecidableEq, Repr

structure IntegrityIssue where
  severity : IssueSeverity
  code : String
  message : String
  path : Option String := none
deriving DecidableEq, Repr

structure NormalizedInfo where
  artifactIds : List String
  mustACs : List String
deriving DecidableEq, Repr

structure IntegrityResult where
  spec : VCCSpec
  issues : List IntegrityIssue
  normalized : NormalizedInfo
deriving DecidableEq, Repr

inductive VStatus
  | pass
  | fail
  | skip
deriving DecidableEq, Repr

structure EvidenceRecord where
  evidenceType : EvidenceType
  uri : Option String := none
  sha256 : Option String := none
deriving DecidableEq, Repr

/-- The `ValidationResult`.  The untyped `details` record is not modelled;
the structured quantities the claims are about (coverage, signals) are
exposed through the named helper definitions below instead. -/
structure ValidationResult where
  acId : String
  status : VStatus
  severity : Severity
  summary : String
  evidence : Option EvidenceRecord := none
deriving DecidableEq, Repr

/-- A validator adapter as seen by the integrity pass: `canValidate`
returns `none` when the underlying readiness check throws (the source
catches and ignores such exceptions). -/
structure ValidatorAdapter where
  id : String
  supportedTypes : List ACType
  canValidate : AcceptanceCriterionSpec → VCCSpec → RunContext → Option Bool

structure AdapterRegistry where
  validators : List ValidatorAdapter

structure IntegrityOptions where
  injectUniversalDefaults : Option Bool := none
  requireMustCoverage : Option Bool := none
  citationPattern : Option String := none

end VCC

namespace VCC

/-! ### Small string / list helpers shared by the embedding -/

/-- Insertion-order-preserving unique insert, modelling `Set.add`. -/
def insertUnique (l : List String) (s : String) : List String :=
  if l.contains s then l else l ++ [s]

/-- The `cs` begins with `needle`. -/
def charsHasPfx : List Char → List Char → Bool
  | [], _ => true
  | _ :: _, [] => false
  | n :: ns, c :: cs => n = c && charsHasPfx ns cs

/-- The `needle` occurs somewhere in `hay`. -/
def charsInfix (needle : List Char) : List Char → Bool
  | [] => needle.isEmpty
  | c :: rest => charsHasPfx needle (c :: rest) || charsInfix needle rest

/-- Substring test (JS `String.prototype.includes`). -/
def containsSub (s sub : String) : Bool :=
  charsInfix sub.toList s.toList

/-- The `String.startsWith` operation, implemented structurally. -/
def strStartsWith (s pre : String) : Bool :=
  charsHasPfx pre.toList s.toList

/-- Lower-case a string (JS `toLowerCase`, restricted to the ASCII
mapping of `Char.toLower`). -/
def strToLower (s : String) : String :=
  String.mk (s.toList.map Char.toLower)

def trimChars (cs : List Char) : List Char :=
  ((cs.dropWhile Char.isWhitespace).reverse.dropWhile Char.isWhitespace).reverse

/-- The `String.trim` operation (JS `trim`), implemented structurally. -/
def strTrim (s : String) : String :=
  String.mk (trimChars s.toList)

/-- Split at every character satisfying `p`, keeping empty segments
(the callers filter them out, matching the JS `split` uses). -/
def splitOnPredGo (p : Char → Bool) : List Char → List Char → List String
  | [], acc => [String.mk acc.reverse]
  | c :: rest, acc =>
    if p c then String.mk acc.reverse :: splitOnPredGo p rest []
    else splitOnPredGo p rest (c :: acc)

def splitOnPred (p : Char → Bool) (s : String) : List String :=
  splitOnPredGo p s.toList []

/-- Split on `/\r?\n/`: split at newlines, dropping a carriage return
that immediately precedes a newline (a trailing bare CR is kept, as in
JS). -/
def splitCrlfGo : List Char → List Char → List String
  | [], acc => [String.mk acc.reverse]
  | '\n' :: rest, acc =>
    (match acc with
     | '\r' :: acc2 => String.mk acc2.reverse
     | _ => String.mk acc.reverse) :: splitCrlfGo rest []
  | c :: rest, acc => splitCrlfGo rest (c :: acc)

def splitCrlfLines (text : String) : List String :=
  splitCrlfGo text.toList []

/-- A word character in the sense of regex `\w`. -/
def isWordChar (c : Char) : Bool := c.isAlphanum || c = '_'

/-- The `cs` starts with `needle` followed by a word boundary. -/
def wordAt : List Char → List Char → Bool
  | [], rest =>
    match rest with
    | [] => true
    | c :: _ => !(isWordChar c)
  | _ :: _, [] => false
  | n :: ns, c :: cs2 => n = c && wordAt ns cs2

/-- Case-insensitive `\bneedle\b` containment test (`needle` given in
lower case). -/
def containsWordGo (needle : List Char) : List Char → Bool → Bool
  | [], _ => false
  | c :: rest, prevWord =>
    (!prevWord && wordAt needle (c :: rest)) || containsWordGo needle rest (isWordChar c)

def containsWord (needle : String) (text : String) : Bool :=
  containsWordGo needle.toList (text.toList.map Char.toLower) false

/-- Index of the first case-insensitive `\bneedle\b` occurrence. -/
def findWordIdxGo (needle : List Char) : List Char → Bool → Nat → Option Nat
  | [], _, _ => none
  | c :: rest, prevWord, i =>
    if !prevWord && wordAt needle (c :: rest) then some i
    else findWordIdxGo needle rest (isWordChar c) (i + 1)

end VCC

namespace VCC

/-! ### Defaults injection (`injectDefaultRubrics`, `injectDefaultAcceptance`) -/

/-- The `.source` of the default citation pattern
`/\[[^\]]+\]\(([^)]+)\)/g` (markdown links). -/
def defaultCitationPatternSource : String := "\\[[^\\]]+\\]\\(([^)]+)\\)"

def defaultOverallRubric : RubricSpec :=
  { rubricId := "RUBRIC-OVERALL-v1"
    scale := [1, 2, 3, 4, 5]
    anchors :=
      [("1", "Incorrect/incomplete; fails core requirements"),
       ("3", "Mostly correct; notable gaps or rough edges"),
       ("5", "Polished; correct; consistent; ready for delivery")]
    passThreshold := 4 }

def defaultClarityRubric : RubricSpec :=
  { rubricId := "RUBRIC-CLARITY-v1"
    scale := [1, 2, 3, 4, 5]
    anchors :=
      [("1", "Hard to follow; ambiguous; missing context"),
       ("3", "Understandable; some ambiguities"),
       ("5", "Clear, structured, and actionable")]
    passThreshold := 4 }

/-- The `injectDefaultRubrics`: appends each default rubric unless a rubric
with the same id is already present (membership computed once, up
front, as in the source). -/
def injectDefaultRubrics (spec : VCCSpec) : VCCSpec :=
  let rubrics := spec.rubrics.getD []
  let existing := rubrics.map (·.rubricId)
  let rubrics :=
    if existing.contains "RUBRIC-OVERALL-v1" then rubrics
    else rubrics ++ [defaultOverallRubric]
  let rubrics :=
    if existing.contains "RUBRIC-CLARITY-v1" then rubrics
    else rubrics ++ [defaultClarityRubric]
  { spec with rubrics := some rubrics }

/-- The `findLikelySpecArtifacts`.  On an empty `artifacts` list the source
evaluates `spec.artifacts[0].artifactId` and throws a `TypeError`; that
state is unreachable through `specIntegrityPass` (guarded by the
`ARTIFACTS_EMPTY` early exit) and is modelled as `[]`. -/
def findLikelySpecArtifacts (spec : VCCSpec) : List ArtifactId :=
  let required := spec.artifacts.filter (·.required)
  match required with
  | [] =>
    match spec.artifacts with
    | [] => []
    | a :: _ => [a.artifactId]
  | r :: _ =>
    let ids := (required.filter (fun a =>
      let k := strToLower a.kind
      let st := strToLower (a.subtype.getD "")
      containsSub k "spec" || containsSub st "requirements" || containsSub st "protocol")).map
        (·.artifactId)
    if ids.isEmpty then [r.artifactId] else ids

/-- The `findNarrativeArtifacts` (same `TypeError` caveat as
`findLikelySpecArtifacts` on empty `artifacts`). -/
def findNarrativeArtifacts (spec : VCCSpec) : List ArtifactId :=
  let required := spec.artifacts.filter (·.required)
  match required with
  | [] =>
    match spec.artifacts with
    | [] => []
    | a :: _ => [a.artifactId]
  | _ :: _ =>
    let ids := (required.filter (fun a =>
      a.formats.any (fun f =>
        strStartsWith f.mediaType "text/" || containsSub f.mediaType "markdown"))).map (·.artifactId)
    if ids.isEmpty then required.map (·.artifactId) else ids

/-- The injected structural-completeness MUST criterion. -/
def univStructCriterion (spec : VCCSpec) : AcceptanceCriterionSpec :=
  { acId := "AC-UNIV-STRUCT-1"
    targetArtifacts := findLikelySpecArtifacts spec
    type := .structureType
    severity := .must
    rule := { requiredSections := some ["Scope", "Assumptions", "Risks", "Acceptance Criteria"] }
    evidence := { required := true, evidenceType := .auto,
                  producedArtifact := some "E-AC-UNIV-STRUCT-1" } }

/-- The injected traceability SHOULD criterion. -/
def univTraceCriterion (spec : VCCSpec) (citationPattern : Option String) :
    AcceptanceCriterionSpec :=
  { acId := "AC-UNIV-TRACE-1"
    targetArtifacts := findNarrativeArtifacts spec
    type := .traceability
    severity := .should
    rule := { description := some
                "Key claims should be backed by citations or explicit 'UNSOURCED/INFERENCE' labels."
              minCitationCoverage := some ((6 : Rat) / 10)
              citationPattern := some (citationPattern.getD defaultCitationPatternSource) }
    evidence := { required := true, evidenceType := .auto,
                  producedArtifact := some "E-AC-UNIV-TRACE-1" } }

/-- The injected cross-artifact consistency SHOULD criterion. -/
def univConsistCriterion (spec : VCCSpec) : AcceptanceCriterionSpec :=
  { acId := "AC-UNIV-CONSIST-1"
    targetArtifacts := (spec.artifacts.filter (·.required)).map (·.artifactId)
    type := .consistency
    severity := .should
    rule := { description := some
                "Artifacts should not contradict each other on defined scope and decisions." }
    evidence := { required := true, evidenceType := .aiJudged,
                  producedArtifact := some "E-AC-UNIV-CONSIST-1" } }

/-- The injected provenance MUST criterion: its targets are exactly the
packaging inputs. -/
def univProvCriterion (spec : VCCSpec) : AcceptanceCriterionSpec :=
  { acId := "AC-UNIV-PROV-1"
    targetArtifacts := spec.packaging.flatMap (·.inputs)
    type := .provenance
    severity := .must
    rule := { require := some spec.provenancePolicy.require }
    evidence := { required := true, evidenceType := .auto,
                  producedArtifact := some "E-AC-UNIV-PROV-1" } }

/-- The `injectDefaultAcceptance`: appends the four universal baseline
criteria, each only when its id is not already present (membership
computed once from the original list, as in the source). -/
def injectDefaultAcceptance (spec : VCCSpec) (citationPattern : Option String) : VCCSpec :=
  let acc := spec.acceptance
  let existing := acc.map (·.acId)
  let acc :=
    if existing.contains "AC-UNIV-STRUCT-1" then acc
    else acc ++ [univStructCriterion spec]
  let acc :=
    if existing.contains "AC-UNIV-TRACE-1" then acc
    else acc ++ [univTraceCriterion spec citationPattern]
  let acc :=
    if existing.contains "AC-UNIV-CONSIST-1" then acc
    else acc ++ [univConsistCriterion spec]
  let acc :=
    if existing.contains "AC-UNIV-PROV-1" then acc
    else acc ++ [univProvCriterion spec]
  { spec with acceptance := acc }

end VCC

namespace VCC

/-! ### Spec integrity pass -/

def artifactsEmptyIssue : IntegrityIssue :=
  { severity := .error
    code := "ARTIFACTS_EMPTY"
    message := "VCCSpec.artifacts must contain at least one artifact."
    path := some "/artifacts" }

/-- The per-artifact loop of the integrity pass: collects issues, builds
the artifact-id set (in insertion order) and repairs `dependsOn`.  An
artifact with a missing (empty) id is skipped (`continue`) before any
other check, exactly as in the source. -/
def artifactChecksGo : List ArtifactSpec → Nat → List String →
    List IntegrityIssue × List String × List ArtifactSpec
  | [], _, seen => ([], seen, [])
  | a :: rest, i, seen =>
    if a.artifactId = "" then
      let (issues, ids, arts) := artifactChecksGo rest (i + 1) seen
      ({ severity := .error, code := "ARTIFACT_ID_MISSING", message := "artifactId missing",
         path := some s!"/artifacts/{i}/artifactId" } :: issues, ids, a :: arts)
    else
      let aid := a.artifactId
      let dupIssues :=
        if seen.contains aid then
          [{ severity := .error, code := "ARTIFACT_ID_DUPLICATE",
             message := s!"Duplicate artifactId: {aid}",
             path := some s!"/artifacts/{i}/artifactId" : IntegrityIssue }]
        else []
      let seen2 := insertUnique seen aid
      let fmtIssues :=
        if a.formats.isEmpty then
          [{ severity := .error, code := "ARTIFACT_FORMATS_EMPTY",
             message := "Artifact formats must be non-empty",
             path := some s!"/artifacts/{i}/formats" : IntegrityIssue }]
        else []
      let a2 := { a with dependsOn := some (a.dependsOn.getD []) }
      let ownIssues :=
        if a.owners.isEmpty then
          [{ severity := .warning, code := "ARTIFACT_OWNERS_EMPTY",
             message := "Artifact owners is empty (reduces accountability)",
             path := some s!"/artifacts/{i}/owners" : IntegrityIssue }]
        else []
      let (issues, ids, arts) := artifactChecksGo rest (i + 1) seen2
      (dupIssues ++ fmtIssues ++ ownIssues ++ issues, ids, a2 :: arts)

/-- The `dependsOn` reference validation. -/
def dependsOnIssues (artifacts : List ArtifactSpec) (idSet : List String) :
    List IntegrityIssue :=
  (artifacts.enum.map (fun p =>
    let i := p.1
    let a := p.2
    (a.dependsOn.getD []).enum.filterMap (fun q =>
      let j := q.1
      let dep := q.2
      if idSet.contains dep then none
      else
        let aid := a.artifactId
        some { severity := .error, code := "ARTIFACT_DEP_MISSING",
               message := s!"Artifact {aid} dependsOn missing artifactId: {dep}",
               path := some s!"/artifacts/{i}/dependsOn/{j}" }))).flatten

/-- Packaging-input reference validation. -/
def packagingIssues (packaging : List PackagingSpec) (idSet : List String) :
    List IntegrityIssue :=
  (packaging.enum.map (fun p =>
    let i := p.1
    let pk := p.2
    pk.inputs.enum.filterMap (fun q =>
      let j := q.1
      let aid := q.2
      if idSet.contains aid then none
      else
        let pid := pk.packageId
        some { severity := .error, code := "PACKAGING_INPUT_MISSING",
               message := s!"Packaging {pid} input references missing artifactId: {aid}",
               path := some s!"/packaging/{i}/inputs/{j}" }))).flatten

/-- Acceptance-criteria loop: duplicate `acId`s and unresolved target
artifacts, checked against the artifact-id set. -/
def acceptanceIssues (acceptance : List AcceptanceCriterionSpec) (idSet : List String) :
    List IntegrityIssue :=
  go acceptance 0 []
where
  go : List AcceptanceCriterionSpec → Nat → List String → List IntegrityIssue
    | [], _, _ => []
    | ac :: rest, i, seen =>
      let acid := ac.acId
      let dupIssues :=
        if seen.contains acid then
          [{ severity := .error, code := "AC_ID_DUPLICATE",
             message := s!"Duplicate acId: {acid}",
             path := some s!"/acceptance/{i}/acId" : IntegrityIssue }]
        else []
      let seen2 := insertUnique seen acid
      let targetIssues := ac.targetArtifacts.enum.filterMap (fun q =>
        let j := q.1
        let t := q.2
        if idSet.contains t then none
        else
          some { severity := .error, code := "AC_TARGET_MISSING",
                 message := s!"Acceptance {acid} targets missing artifactId: {t}",
                 path := some s!"/acceptance/{i}/targetArtifacts/{j}" })
      dupIssues ++ targetIssues ++ go rest (i + 1) seen2

/-- Rubric references inside acceptance rule payloads must resolve. -/
def rubricRefIssues (acceptance : List AcceptanceCriterionSpec) (rubricSet : List String) :
    List IntegrityIssue :=
  acceptance.enum.filterMap (fun p =>
    let i := p.1
    let ac := p.2
    match ac.rule.rubricRef with
    | none => none
    | some rubricRef =>
      if rubricSet.contains rubricRef then none
      else
        let acid := ac.acId
        some { severity := .error, code := "RUBRIC_REF_MISSING",
               message := s!"Acceptance {acid} references missing rubricId: {rubricRef}",
               path := some s!"/acceptance/{i}/rule/rubricRef" })

/-- Rubric references inside gate approvals must resolve. -/
def gateIssues (gates : List GateSpec) (rubricSet : List String) : List IntegrityIssue :=
  (gates.enum.map (fun p =>
    let i := p.1
    let g := p.2
    g.requiredApprovals.enum.filterMap (fun q =>
      let j := q.1
      let ra := q.2
      match ra.rubricId with
      | none => none
      | some rid =>
        if rubricSet.contains rid then none
        else
          let gid := g.gateId
          some { severity := .error, code := "GATE_RUBRIC_REF_MISSING",
                 message := s!"Gate {gid} approval references missing rubricId: {rid}",
                 path := some s!"/gates/{i}/requiredApprovals/{j}/rubricId" }))).flatten

/-- Owner roles not found in the team roster (warning only; skipped when
the roster is empty). -/
def teamRoleIssues (artifacts : List ArtifactSpec) (teamRoles : List String) :
    List IntegrityIssue :=
  (artifacts.enum.map (fun p =>
    let i := p.1
    let a := p.2
    a.owners.enum.filterMap (fun q =>
      let j := q.1
      let owner := q.2
      if teamRoles.length > 0 && !(teamRoles.contains owner) then
        some { severity := .warning, code := "ROLE_NOT_IN_TEAM",
               message := s!"Artifact owner role not found in team: {owner}",
               path := some s!"/artifacts/{i}/owners/{j}" }
      else none))).flatten

/-- Everything `specIntegrityPass` does between the `ARTIFACTS_EMPTY`
early exit and the defaults injection: version check, array
normalization, artifact / dependsOn / packaging / acceptance / rubric /
gate / team checks.  Returns the normalized spec, the issues in source
order, and the artifact-id list (`Array.from(artifactIdSet)`). -/
def normalizePhase (spec0 : VCCSpec) (ctx : RunContext) :
    VCCSpec × List IntegrityIssue × List String :=
  let versionIssues :=
    if spec0.vccVersion = "sdlaf.vcc/v1" then []
    else
      let v := spec0.vccVersion
      [{ severity := .error, code := "VERSION_UNSUPPORTED",
         message := s!"Unsupported vccVersion: {v}",
         path := some "/vccVersion" : IntegrityIssue }]
  let spec := { spec0 with
    relationships := some (spec0.relationships.getD [])
    rubrics := some (spec0.rubrics.getD [])
    gates := some (spec0.gates.getD []) }
  let (artIssues, artifactIds, artifacts2) := artifactChecksGo spec.artifacts 0 []
  let spec := { spec with artifacts := artifacts2 }
  let depIssues := dependsOnIssues spec.artifacts artifactIds
  let pkgIssues := packagingIssues spec.packaging artifactIds
  let accIssues := acceptanceIssues spec.acceptance artifactIds
  let rubricSet := (spec.rubrics.getD []).map (·.rubricId)
  let rrIssues := rubricRefIssues spec.acceptance rubricSet
  let gIssues := gateIssues (spec.gates.getD []) rubricSet
  let teamRoles := ctx.team.foldl (fun acc t => insertUnique acc t.1) []
  let trIssues := teamRoleIssues spec.artifacts teamRoles
  (spec,
   versionIssues ++ artIssues ++ depIssues ++ pkgIssues ++ accIssues ++ rrIssues ++
     gIssues ++ trIssues,
   artifactIds)

/-- The defaults-injection step of `specIntegrityPass` (a no-op when
`injectUniversalDefaults` is `false`; the option defaults to `true`). -/
def injectPhase (spec : VCCSpec) (opts : IntegrityOptions) : VCCSpec :=
  if opts.injectUniversalDefaults.getD true then
    injectDefaultAcceptance (injectDefaultRubrics spec) opts.citationPattern
  else spec

/-- The MUST-coverage check for one criterion: the single issue the
source's loop body pushes for it, if any.  A thrown `canValidate`
(modelled `none`) counts as not accepting. -/
def mustCoverageIssue (registry : AdapterRegistry) (spec : VCCSpec) (ctx : RunContext)
    (ac : AcceptanceCriterionSpec) : Option IntegrityIssue :=
  let acid := ac.acId
  let idx : Int :=
    match spec.acceptance.findIdx? (fun x => x.acId = ac.acId) with
    | some n => (n : Int)
    | none => -1
  match ac.rule.adapter with
  | some explicitAdapter =>
    if registry.validators.any (fun v => v.id = explicitAdapter) then none
    else
      some { severity := .error, code := "EXPLICIT_VALIDATOR_MISSING",
             message := s!"MUST criterion {acid} names adapter '{explicitAdapter}', but no such validator is registered."
             path := some s!"/acceptance/{idx}/rule/adapter" }
  | none =>
    let candidates := registry.validators.filter (fun v => v.supportedTypes.contains ac.type)
    if candidates.isEmpty then
      let ty := acTypeStr ac.type
      some { severity := .error, code := "NO_VALIDATOR_FOR_TYPE",
             message := s!"No validator registered for MUST criterion type '{ty}' (acId={acid}).",
             path := some s!"/acceptance/{idx}/type" }
    else if candidates.any (fun v => v.canValidate ac spec ctx = some true) then none
    else
      let ty := acTypeStr ac.type
      some { severity := .error, code := "UNVERIFIABLE_MUST",
             message := s!"MUST criterion {acid} appears unverifiable by registered validators (type='{ty}').",
             path := some s!"/acceptance/{idx}" }

/-- The MUST-coverage issues over all MUST criteria of the
(post-injection) contract. -/
def mustCoverageIssues (registry : AdapterRegistry) (spec : VCCSpec) (ctx : RunContext) :
    List IntegrityIssue :=
  (spec.acceptance.filter (fun a => a.severity = .must)).filterMap
    (mustCoverageIssue registry spec ctx)

/-- The `specIntegrityPass`: validates cross-references, normalizes,
optionally injects universal defaults and checks MUST coverage;
`Except.error` models the thrown `SpecIntegrityError` carrying the
complete issue list.  `deepClone` of the input is the identity on pure
values. -/
def specIntegrityPass (inputSpec : VCCSpec) (ctx : RunContext) (registry : AdapterRegistry)
    (opts : IntegrityOptions := {}) : Except (List IntegrityIssue) IntegrityResult :=
  if inputSpec.artifacts.isEmpty then
    .error [artifactsEmptyIssue]
  else
    let np := normalizePhase inputSpec ctx
    let spec2 := injectPhase np.1 opts
    let mustACs := (spec2.acceptance.filter (fun a => a.severity = .must)).map (·.acId)
    let coverageIssues :=
      if opts.requireMustCoverage.getD true then mustCoverageIssues registry spec2 ctx
      else []
    let issues := np.2.1 ++ coverageIssues
    if (issues.filter (fun i => i.severity = .error)).isEmpty then
      .ok { spec := spec2, issues := issues,
            normalized := { artifactIds := np.2.2, mustACs := mustACs } }
    else
      .error issues

end VCC

namespace VCC

/-! ### Validator helpers -/

/-- The `readArtifactText(spec, ctx, artifactId)`: find the artifact, pick
the first `text/*` format (else the first format; an empty `formats`
array makes the source throw a `TypeError`, modelled as an error), and
read it from the store. -/
def readArtifactText (spec : VCCSpec) (ctx : RunContext) (artifactId : ArtifactId) :
    Except String String :=
  match spec.artifacts.find? (fun x => x.artifactId = artifactId) with
  | none => .error s!"Artifact not found: {artifactId}"
  | some a =>
    match (a.formats.find? (fun f => strStartsWith f.mediaType "text/")).orElse
        (fun _ => a.formats.head?) with
    | none => .error "TypeError: cannot read uri of undefined format"
    | some best => ctx.readText best.uri

/-- The `writeEvidence`: the store write is effect-only; the observable
result is the uri plus a digest, modelled as `ctx.hashText` of the
written contents. -/
def writeEvidence (ctx : RunContext) (evidenceUri : String) (contents : String) :
    String × String :=
  (evidenceUri, ctx.hashText contents)

def evidenceUriFor (acId : String) : String :=
  s!"sdlaf-exports/evidence/{acId}.txt"

/-- The `safeReadText(ctx, uri)`.  The source body calls
`readArtifactText(ctx, uri)`, which mismatches that function's
`(spec, ctx, artifactId)` signature: at runtime `ctx` is used as the
spec and `ctx.artifacts.find` is not a function, so a `TypeError` is
thrown, caught by the surrounding `try`, a read-failure evidence record
is written, and `""` is returned.  The observable value is therefore
always the empty string. -/
def safeReadText (_ctx : RunContext) (_uri : String) : String := ""

/-! ### `splitSentences` and the fixed regexes it uses -/

/-- The `/^#{1,6}\s+/` : one to six `#` characters followed by whitespace. -/
def isHeadingLine (l : String) : Bool :=
  let cs := l.toList
  let n := (cs.takeWhile (· = '#')).length
  decide (1 ≤ n) && decide (n ≤ 6) &&
    (match cs.drop n with
     | c :: _ => c.isWhitespace
     | [] => false)

/-- The `/^[-*+]\s+/` -/
def isBulletLine (l : String) : Bool :=
  match l.toList with
  | c :: d :: _ => (c = '-' || c = '*' || c = '+') && d.isWhitespace
  | _ => false

/-- The `/^\d+\.\s+/` -/
def isNumberedLine (l : String) : Bool :=
  let cs := l.toList
  let ds := cs.takeWhile Char.isDigit
  match cs.drop ds.length with
  | '.' :: c :: _ => !ds.isEmpty && c.isWhitespace
  | _ => false

/-- The `split(/(?<=[.!?])\s+/)`: split a (newline-free) line at whitespace
runs that immediately follow `.`, `!` or `?`; the whitespace run is the
separator.  State machine: `inSep` = currently consuming a separator
run, `prevEnd` = previous kept character was a sentence terminator. -/
def sentenceGo : List Char → List Char → Bool → Bool → List String
  | [], acc, _, _ => [String.mk acc.reverse]
  | c :: rest, acc, inSep, prevEnd =>
    if inSep then
      if c.isWhitespace then sentenceGo rest acc true false
      else sentenceGo rest [c] false (c = '.' || c = '!' || c = '?')
    else if c.isWhitespace && prevEnd then
      String.mk acc.reverse :: sentenceGo rest [] true false
    else sentenceGo rest (c :: acc) false (c = '.' || c = '!' || c = '?')

/-- The `splitSentences`: heading / bullet / numbered lines are one chunk
each; other lines are split into sentences; blank lines are skipped. -/
def splitSentences (text : String) : List String :=
  (splitCrlfLines text).foldr (fun line chunks =>
    let l := strTrim line
    if l = "" then chunks
    else if isHeadingLine l || isBulletLine l || isNumberedLine l then l :: chunks
    else sentenceGo l.toList [] false false ++ chunks) []

/-- The `/\b(UNSOURCED|INFERENCE)\b/i` -/
def markedUnsourced (s : String) : Bool :=
  containsWord "unsourced" s || containsWord "inference" s

/-! ### Validator: Traceability (citation coverage) -/

/-- One `perArtifact` entry of the traceability validator. -/
structure CoverageEntry where
  artifactId : String
  coverage : Rat
  cited : Nat
  total : Nat
deriving DecidableEq, Repr

/-- The `(cited, total)` counts for one artifact's text: chunks from
`splitSentences` with blank chunks dropped; a chunk is cited when the
citation pattern matches it (`regexTest` abstracts `RegExp.test` for
the configurable pattern source) or it carries an UNSOURCED/INFERENCE
marker; `total` is clamped to at least 1. -/
def citationStats (regexTest : String → String → Bool) (patternSource : String)
    (text : String) : Nat × Nat :=
  let sentences := (splitSentences text).filter (fun s => (strTrim s).length > 0)
  let cited := (sentences.filter (fun s => regexTest patternSource s || markedUnsourced s)).length
  (cited, max 1 sentences.length)

/-- Coverage = cited / total for one artifact's text. -/
def citationCoverage (regexTest : String → String → Bool) (patternSource : String)
    (text : String) : Rat :=
  let st := citationStats regexTest patternSource text
  (st.1 : Rat) / (st.2 : Rat)

/-- The per-artifact loop of the traceability validator; a failed read
propagates (the source has no try/catch here). -/
def coverageEntries (regexTest : String → String → Bool) (patternSource : String)
    (spec : VCCSpec) (ctx : RunContext) : List ArtifactId → Except String (List CoverageEntry)
  | [] => .ok []
  | artifactId :: rest =>
    match readArtifactText spec ctx artifactId with
    | .error e => .error e
    | .ok text =>
      match coverageEntries regexTest patternSource spec ctx rest with
      | .error e => .error e
      | .ok tl =>
        let st := citationStats regexTest patternSource text
        .ok ({ artifactId := artifactId
               coverage := (st.1 : Rat) / (st.2 : Rat)
               cited := st.1
               total := st.2 } :: tl)

/-- The effective minimum coverage of a traceability criterion
(defaults to 0.5). -/
def traceMinCoverage (ac : AcceptanceCriterionSpec) : Rat :=
  ac.rule.minCitationCoverage.getD ((1 : Rat) / 2)

/-- The effective citation-pattern source of a traceability criterion
(defaults to the markdown-link pattern). -/
def tracePatternSource (ac : AcceptanceCriterionSpec) : String :=
  ac.rule.citationPattern.getD defaultCitationPatternSource

/-- The `TraceabilityCitationCoverageValidator.validate`. -/
def traceabilityValidate (regexTest : String → String → Bool)
    (ac : AcceptanceCriterionSpec) (spec : VCCSpec) (ctx : RunContext) :
    Except String ValidationResult :=
  let minCoverage := traceMinCoverage ac
  let patternSource := tracePatternSource ac
  match coverageEntries regexTest patternSource spec ctx ac.targetArtifacts with
  | .error e => .error e
  | .ok perArtifact =>
    let worst := perArtifact.foldl (fun m x => min m x.coverage) 1
    let pass := decide (minCoverage ≤ worst)
    let lines := perArtifact.map (fun x =>
      let aid := x.artifactId
      let cited := x.cited
      let total := x.total
      s!"{aid}: coverage ({cited}/{total})")
    let header := "Traceability Citation Coverage\n"
    let resultLine := if pass then "\nResult: PASS" else "\nResult: FAIL"
    let evidenceText := header ++ String.intercalate "\n" lines ++ resultLine
    let ev := writeEvidence ctx (evidenceUriFor ac.acId) evidenceText
    .ok { acId := ac.acId
          status := if pass then .pass else .fail
          severity := ac.severity
          summary := if pass then "Citation coverage meets threshold."
                     else "Citation coverage below threshold."
          evidence := some { evidenceType := .auto, uri := some ev.1, sha256 := some ev.2 } }

end VCC

namespace VCC

/-! ### Validator: Consistency (simple cross-check) -/

structure ContradictionSignal where
  confidence : Rat
  summary : String
deriving DecidableEq, Repr

/-- The `s.trim().toLowerCase().replace(/\s+/g, " ")` -/
def normalizeItem (s : String) : String :=
  String.intercalate " " ((splitOnPred Char.isWhitespace (strToLower (strTrim s))).filter (· ≠ ""))

/-- Does line `l` match `^#{1,6}\s+HEADING\s*$` (case-insensitive,
`HEADING` taken literally — the source escapes it)? -/
def headingMatches (l : String) (heading : String) : Bool :=
  let cs := l.toList
  let n := (cs.takeWhile (· = '#')).length
  if decide (1 ≤ n) && decide (n ≤ 6) then
    let rest := cs.drop n
    let ws := rest.takeWhile Char.isWhitespace
    if ws.isEmpty then false
    else
      let body := (rest.drop ws.length).reverse.dropWhile Char.isWhitespace
      strToLower (String.mk body.reverse) = strToLower heading
  else false

/-- The `extractSection`: the trimmed block between the first line matching
the heading and the next heading line (or end of text).  The source
slices the raw string at regex match offsets; this line-based
reconstruction joins the block's lines with a newline. -/
def extractSection (text : String) (heading : String) : Option String :=
  go (splitCrlfLines text)
where
  go : List String → Option String
    | [] => none
    | l :: rest =>
      if headingMatches l heading then
        some (strTrim (String.intercalate "\n" (rest.takeWhile (fun l2 => !isHeadingLine l2))))
      else go rest

/-- The `(.*)` capture of `/^[-*+]\s+(.*)$/` or `/^\d+\.\s+(.*)$/`. -/
def bulletContent (line : String) : Option String :=
  match line.toList with
  | [] => none
  | c :: rest =>
    if c = '-' || c = '*' || c = '+' then
      let ws := rest.takeWhile Char.isWhitespace
      if ws.isEmpty then none else some (String.mk (rest.drop ws.length))
    else
      let cs := c :: rest
      let ds := cs.takeWhile Char.isDigit
      if ds.isEmpty then none
      else
        match cs.drop ds.length with
        | '.' :: r2 =>
          let ws := r2.takeWhile Char.isWhitespace
          if ws.isEmpty then none else some (String.mk (r2.drop ws.length))
        | _ => none

/-- The `extractListUnderHeadings`: normalized bullet/numbered items (of
trimmed length > 2) under any of the given headings, as an
insertion-ordered set. -/
def extractListUnderHeadings (text : String) (headings : List String) : List String :=
  headings.foldl (fun set h =>
    match extractSection text h with
    | none => set
    | some block =>
      (splitCrlfLines block).foldl (fun set line =>
        match bulletContent line with
        | some item => if 2 < (strTrim item).length then insertUnique set (normalizeItem item) else set
        | none => set) set) []

/-- The `mentionsAsInScope`: the normalized "In Scope" (or "Objectives")
block contains the normalized item as a substring. -/
def mentionsAsInScope (text : String) (item : String) : Bool :=
  match (extractSection text "In Scope").orElse (fun _ => extractSection text "Objectives") with
  | none => false
  | some block => containsSub (normalizeItem block) (normalizeItem item)

/-- The `extractMustStatements`: non-blank trimmed lines containing
`\b(must|shall|required to)\b` (case-insensitive), as an
insertion-ordered set. -/
def extractMustStatements (text : String) : List String :=
  (splitCrlfLines text).foldl (fun set line =>
    let l := strTrim line
    if l = "" then set
    else if containsWord "must" l || containsWord "shall" l || containsWord "required to" l then
      insertUnique set l
    else set) []

/-- Tokens of a requirement line: non-`[\w\s-]` characters replaced by
spaces, split on whitespace, keeping tokens of length ≥ 5, first 8. -/
def requirementTokens (line : String) : List String :=
  let cleaned := String.mk (line.toList.map (fun c =>
    if isWordChar c || c.isWhitespace || c = '-' then c else ' '))
  ((splitOnPred Char.isWhitespace cleaned).filter (fun t => 5 ≤ t.length)).take 8

/-- The window `.{0,40}\btok\b.{0,40}` around the first word-boundary
occurrence at index `i` (length `len`), clipped at newlines since regex
`.` does not cross them.  (The regex engine's exact backtracking window
is approximated by this maximal same-line window.) -/
def windowAround (low : List Char) (i len : Nat) : List Char :=
  let before := (((low.take i).reverse.takeWhile (· ≠ '\n')).take 40).reverse
  let after := ((low.drop (i + len)).takeWhile (· ≠ '\n')).take 40
  before ++ (low.drop i).take len ++ after

/-- The `/(not required|will not|must not|shall not|out of scope|non-goal)/i`
(input already lower-cased). -/
def negTermsTest (w : String) : Bool :=
  ["not required", "will not", "must not", "shall not", "out of scope", "non-goal"].any
    (fun p => containsSub w p)

/-- The `negates(text, requirementLine)`: some key token of the requirement
occurs in `text` with a negating phrase in its ±40-character window. -/
def negates (text : String) (requirementLine : String) : Bool :=
  let tokens := requirementTokens requirementLine
  if tokens.isEmpty then false
  else
    let low := text.toList.map Char.toLower
    tokens.any (fun tok =>
      let tl := tok.toList.map Char.toLower
      match findWordIdxGo tl low false 0 with
      | none => false
      | some i => negTermsTest (String.mk (windowAround low i tl.length)))

def trimTo (s : String) (n : Nat) : String :=
  if s.length ≤ n then s else (s.take (n - 1)) ++ "…"

/-- Lookup in the insertion-ordered `texts` map. -/
def assocGet (m : List (String × String)) (k : String) : String :=
  (((m.find? (fun p => p.1 = k)).map (·.2)).getD "")

/-- All index pairs `i < j` in order, as the source's double loop. -/
def orderedPairs : List String → List (String × String)
  | [] => []
  | a :: rest => rest.map (fun b => (a, b)) ++ orderedPairs rest

/-- The `findContradictionSignals`: no signals with fewer than two texts;
otherwise out-of-scope/in-scope clashes (confidence 0.9) followed by
negated MUST/SHALL statements (confidence 0.86), over all pairs. -/
def findContradictionSignals (texts : List (String × String)) : List ContradictionSignal :=
  let ids := texts.map (·.1)
  if ids.length < 2 then []
  else
    let outScope := fun id => extractListUnderHeadings (assocGet texts id)
      ["Out of Scope", "Non-goals", "Non Goals"]
    let scopeSignals := (orderedPairs ids).flatMap (fun p =>
      let a := p.1
      let b := p.2
      ((outScope a).filterMap (fun item =>
        if mentionsAsInScope (assocGet texts b) item then
          some { confidence := (9 : Rat) / 10,
                 summary := s!"{b} treats '{item}' as in-scope, but {a} lists it out-of-scope." }
        else none))
      ++ ((outScope b).filterMap (fun item =>
        if mentionsAsInScope (assocGet texts a) item then
          some { confidence := (9 : Rat) / 10,
                 summary := s!"{a} treats '{item}' as in-scope, but {b} lists it out-of-scope." }
        else none)))
    let musts := fun id => extractMustStatements (assocGet texts id)
    let mustSignals := (orderedPairs ids).flatMap (fun p =>
      let a := p.1
      let b := p.2
      ((musts a).filterMap (fun req =>
        if negates (assocGet texts b) req then
          let t := trimTo req 120
          some { confidence := (86 : Rat) / 100,
                 summary := s!"{b} negates a MUST/SHALL from {a}: '{t}'" }
        else none))
      ++ ((musts b).filterMap (fun req =>
        if negates (assocGet texts a) req then
          let t := trimTo req 120
          some { confidence := (86 : Rat) / 100,
                 summary := s!"{a} negates a MUST/SHALL from {b}: '{t}'" }
        else none)))
    scopeSignals ++ mustSignals

/-- JS object insert `texts[artifactId] = t`: replace in place if the
key exists, else append. -/
def assocSet (m : List (String × String)) (k v : String) : List (String × String) :=
  if m.any (fun p => p.1 = k) then
    m.map (fun p => if p.1 = k then (k, v) else p)
  else m ++ [(k, v)]

/-- The `texts` map the consistency validator builds: each target whose
read succeeds; a throwing read is ignored. -/
def collectReadableTexts (ac : AcceptanceCriterionSpec) (spec : VCCSpec) (ctx : RunContext) :
    List (String × String) :=
  ac.targetArtifacts.foldl (fun acc artifactId =>
    match readArtifactText spec ctx artifactId with
    | .ok t => assocSet acc artifactId t
    | .error _ => acc) []

/-- The `ConsistencySimpleCrossCheckValidator.validate`. -/
def consistencyValidate (ac : AcceptanceCriterionSpec) (spec : VCCSpec) (ctx : RunContext) :
    ValidationResult :=
  let texts := collectReadableTexts ac spec ctx
  let signals := findContradictionSignals texts
  let high := signals.filter (fun s => (85 : Rat) / 100 ≤ s.confidence)
  let pass := high.isEmpty
  let checked := String.intercalate ", " (texts.map (·.1))
  let signalLines :=
    if signals.isEmpty then "- none"
    else String.intercalate "\n" (signals.map (fun s =>
      let msg := s.summary
      s!"- {msg}"))
  let resultLine := if pass then "\nResult: PASS" else "\nResult: FAIL"
  let evidenceText :=
    s!"Consistency Simple Cross-Check\nChecked artifacts: {checked}\nSignals:\n" ++
      signalLines ++ resultLine
  let ev := writeEvidence ctx (evidenceUriFor ac.acId) evidenceText
  { acId := ac.acId
    status := if pass then .pass else .fail
    severity := ac.severity
    summary := if pass then "No high-confidence contradictions detected."
               else "Potential contradictions detected."
    evidence := some { evidenceType := .aiJudged, uri := some ev.1, sha256 := some ev.2 } }

/-! ### Validator: Provenance required fields -/

/-- The boolean signal map of `ProvenanceRequiredFieldsValidator`: an
unknown signal name maps to JS `undefined`, i.e. not `true`. -/
def provSignalValue (sig : ProvenanceSignals) (r : String) : Bool :=
  if r = "inputs.enumerated" then sig.inputsEnumerated
  else if r = "tooling.recorded" then sig.toolingRecorded
  else if r = "agentActions.logged" then sig.agentActionsLogged
  else if r = "artifactHashes.recorded" then sig.artifactHashesRecorded
  else if r = "dependencies.recorded" then sig.dependenciesRecorded
  else if r = "parameters.recorded" then sig.parametersRecorded
  else if r = "attestation.signed" then sig.attestationSigned
  else false

/-- The `ProvenanceRequiredFieldsValidator.validate`: fail outright when
the context carries no signal map; otherwise pass exactly when no
required signal is missing. -/
def provenanceValidate (ac : AcceptanceCriterionSpec) (_spec : VCCSpec) (ctx : RunContext) :
    ValidationResult :=
  let required := ac.rule.require.getD []
  match ctx.provenanceSignals with
  | none =>
    let evidenceText :=
      "FAIL: provenanceSignals missing in RunContext; cannot validate required provenance."
    let ev := writeEvidence ctx (evidenceUriFor ac.acId) evidenceText
    { acId := ac.acId
      status := .fail
      severity := ac.severity
      summary := "Provenance signals missing; cannot validate required provenance policy."
      evidence := some { evidenceType := .auto, uri := some ev.1, sha256 := some ev.2 } }
  | some sig =>
    let missing := required.filter (fun r => !provSignalValue sig r)
    let pass := missing.isEmpty
    let req := String.intercalate ", " required
    let miss := String.intercalate ", " missing
    let evidenceText :=
      if pass then s!"PASS: All required provenance requirements are satisfied.\nRequired: {req}"
      else s!"FAIL: Missing provenance requirements.\nRequired: {req}\nMissing: {miss}"
    let ev := writeEvidence ctx (evidenceUriFor ac.acId) evidenceText
    { acId := ac.acId
      status := if pass then .pass else .fail
      severity := ac.severity
      summary := if pass then "Provenance policy satisfied."
                 else "Provenance policy missing required signals."
      evidence := some { evidenceType := .auto, uri := some ev.1, sha256 := some ev.2 } }

/-! ### Validator: Rubric AI judge -/

/-- The `RubricAiJudgeValidator.validate`.  Two facts of the source are
visible here: `rubric?.text` reads a field `RubricSpec` does not
declare, so `rubricText` is always the fallback string even when the
rubric resolves; and the first target's content comes from
`safeReadText`, which always yields `""` (see its doc comment). -/
def rubricAiJudgeValidate (ac : AcceptanceCriterionSpec) (spec : VCCSpec) (ctx : RunContext) :
    ValidationResult :=
  let rubricRef := ac.rule.rubricRef.getD ""
  let passThreshold := ac.rule.passThreshold.getD 4
  let _rubric := (spec.rubrics.getD []).find? (fun r => r.rubricId = rubricRef)
  let rubricText := s!"Rubric {rubricRef} not found in spec."
  let target := ac.targetArtifacts.head?
  let content :=
    match target with
    | some t => safeReadText ctx t
    | none => ""
  match ctx.aiJudge with
  | none =>
    let tgt := target.getD "(none)"
    let evidenceText :=
      s!"SKIP: No aiJudge configured in RunContext.\nRubric={rubricRef}\nTarget={tgt}"
    let ev := writeEvidence ctx (evidenceUriFor ac.acId) evidenceText
    { acId := ac.acId
      status := .skip
      severity := ac.severity
      summary := "AI rubric judge not configured; skipped."
      evidence := some { evidenceType := .aiJudged, uri := some ev.1, sha256 := some ev.2 } }
  | some judge =>
    let judged := judge { rubricText := rubricText, content := content,
                          passThreshold := passThreshold, acId := ac.acId }
    let pass := decide (passThreshold ≤ judged.score)
    let tgt := target.getD "(none)"
    let rationale := judged.rationale
    let headline := if pass then "PASS" else "FAIL"
    let evidenceText :=
      s!"{headline}: AI rubric evaluation.\nRubric={rubricRef}\nrationale:\n{rationale}\nTarget={tgt}"
    let ev := writeEvidence ctx (evidenceUriFor ac.acId) evidenceText
    { acId := ac.acId
      status := if pass then .pass else .fail
      severity := ac.severity
      summary := if pass then "Rubric evaluation passed." else "Rubric evaluation failed."
      evidence := some { evidenceType := .aiJudged, uri := some ev.1, sha256 := some ev.2 } }

end VCC

namespace VCC

/-! ### Convergence engine -/

inductive RunStatus
  | success
  | failure
deriving DecidableEq, Repr

inductive RunReason
  | criteriaSatisfied
  | maxPasses
  | stagnantRun
deriving DecidableEq, Repr

structure RunVerdict where
  status : RunStatus
  reason : RunReason
  failingMust : List String
deriving DecidableEq, Repr

/-- Modelled from the spec: the repository ships the Convergence Engine
only as README pseudocode (the implementation with reason codes lives in
the external reference implementation), so the per-iteration order of
§4.3 is modelled here.  `remaining` counts the iterations left before
the `maxIterations` budget is exhausted; `evalMust t` is the failing-MUST
id list the dispatch produces at iteration `t` (artifact refinement is
folded into the iteration index); `stag` is the stagnation test over the
run history.  Order within one iteration: evaluate, then the termination
law (SUCCESS iff failing-MUST empty), then resource exhaustion
(`FAILURE`/`max_passes`), then stagnation (`FAILURE`/`stagnant`), else
refine and loop.  Time/cost budgets are not modelled, only the
iteration budget. -/
def convergenceGo (evalMust : Nat → List String) (stag : Nat → List String → Bool) :
    Nat → Nat → RunVerdict
  | 0, t =>
    let failing := evalMust t
    if failing.isEmpty then ⟨.success, .criteriaSatisfied, []⟩
    else ⟨.failure, .maxPasses, failing⟩
  | r + 1, t =>
    let failing := evalMust t
    if failing.isEmpty then ⟨.success, .criteriaSatisfied, []⟩
    else if stag t failing then ⟨.failure, .stagnantRun, failing⟩
    else convergenceGo evalMust stag r (t + 1)

/-- Modelled from the spec: a run starting at iteration `t` (1-based)
with budget `maxIterations`; iteration `u` is budget-exhausted exactly
when `maxIterations ≤ u`. -/
def convergenceRun (evalMust : Nat → List String) (stag : Nat → List String → Bool)
    (maxIterations t : Nat) : RunVerdict :=
  convergenceGo evalMust stag (maxIterations - t) t

/-- Iteration `u` lets the run continue: failing-MUST non-empty, budget
not exhausted, not stagnant. -/
def runContinues (evalMust : Nat → List String) (stag : Nat → List String → Bool)
    (maxIterations u : Nat) : Prop :=
  evalMust u ≠ [] ∧ u < maxIterations ∧ stag u (evalMust u) = false

end VCC

namespace VCC

lemma convergenceGo_empty (evalMust : Nat → List String) (stag : Nat → List String → Bool)
    (r t : Nat) (he : evalMust t = []) :
    convergenceGo evalMust stag r t = ⟨.success, .criteriaSatisfied, []⟩ := by
  cases r <;> simp [convergenceGo, he]

lemma convergenceGo_exhaust (evalMust : Nat → List String) (stag : Nat → List String → Bool)
    (t : Nat) (he : evalMust t ≠ []) :
    convergenceGo evalMust stag 0 t = ⟨.failure, .maxPasses, evalMust t⟩ := by
  simp [convergenceGo, he]

lemma convergenceGo_stag (evalMust : Nat → List String) (stag : Nat → List String → Bool)
    (r t : Nat) (he : evalMust t ≠ []) (hs : stag t (evalMust t) = true) :
    convergenceGo evalMust stag (r + 1) t = ⟨.failure, .stagnantRun, evalMust t⟩ := by
  simp [convergenceGo, he, hs]

lemma convergenceGo_step (evalMust : Nat → List String) (stag : Nat → List String → Bool)
    (r t : Nat) (he : evalMust t ≠ []) (hs : stag t (evalMust t) = false) :
    convergenceGo evalMust stag (r + 1) t = convergenceGo evalMust stag r (t + 1) := by
  simp [convergenceGo, he, hs]

lemma convergenceGo_success_iff (evalMust : Nat → List String)
    (stag : Nat → List String → Bool) :
    ∀ r t, (convergenceGo evalMust stag r t).status = .success ↔
      ∃ s, t ≤ s ∧ evalMust s = [] ∧
        ∀ u, t ≤ u → u < s →
          (evalMust u ≠ [] ∧ u < t + r ∧ stag u (evalMust u) = false) := by
  intro r
  induction r with
  | zero =>
    intro t
    by_cases he : evalMust t = []
    · rw [convergenceGo_empty evalMust stag 0 t he]
      exact ⟨fun _ => ⟨t, le_refl t, he, fun u hu1 hu2 => absurd hu2 (by omega)⟩,
             fun _ => rfl⟩
    · rw [convergenceGo_exhaust evalMust stag t he]
      constructor
      · intro h
        simp at h
      · rintro ⟨s, hts, hes, hall⟩
        rcases Nat.eq_or_lt_of_le hts with h | h
        · exact absurd (h ▸ he) (fun hh => hh hes)
        · exact absurd (hall t (le_refl t) h).2.1 (by omega)
  | succ r ih =>
    intro t
    by_cases he : evalMust t = []
    · rw [convergenceGo_empty evalMust stag (r + 1) t he]
      exact ⟨fun _ => ⟨t, le_refl t, he, fun u hu1 hu2 => absurd hu2 (by omega)⟩,
             fun _ => rfl⟩
    · by_cases hs : stag t (evalMust t) = true
      · rw [convergenceGo_stag evalMust stag r t he hs]
        constructor
        · intro h
          simp at h
        · rintro ⟨s, hts, hes, hall⟩
          rcases Nat.eq_or_lt_of_le hts with h | h
          · exact absurd (h ▸ he) (fun hh => hh hes)
          · have hc := (hall t (le_refl t) h).2.2
            rw [hs] at hc
            exact absurd hc (by decide)
      · have hs' : stag t (evalMust t) = false := by
          cases hb : stag t (evalMust t)
          · rfl
          · exact absurd hb hs
        rw [convergenceGo_step evalMust stag r t he hs', ih (t + 1)]
        constructor
        · rintro ⟨s, hts, hes, hall⟩
          refine ⟨s, by omega, hes, fun u hu1 hu2 => ?_⟩
          rcases Nat.eq_or_lt_of_le hu1 with h | h
          · exact h ▸ ⟨he, by omega, hs'⟩
          · obtain ⟨a, b, c⟩ := hall u (by omega) hu2
            exact ⟨a, by omega, c⟩
        · rintro ⟨s, hts, hes, hall⟩
          have hst : t < s := by
            rcases Nat.eq_or_lt_of_le hts with h | h
            · exact absurd (h ▸ he) (fun hh => hh hes)
            · exact h
          refine ⟨s, by omega, hes, fun u hu1 hu2 => ?_⟩
          obtain ⟨a, b, c⟩ := hall u (by omega) hu2
          exact ⟨a, by omega, c⟩

lemma convergenceGo_maxPasses_iff (evalMust : Nat → List String)
    (stag : Nat → List String → Bool) :
    ∀ r t, ((convergenceGo evalMust stag r t).status = .failure ∧
        (convergenceGo evalMust stag r t).reason = .maxPasses) ↔
      ∃ s, t ≤ s ∧ evalMust s ≠ [] ∧ t + r ≤ s ∧
        ∀ u, t ≤ u → u < s →
          (evalMust u ≠ [] ∧ u < t + r ∧ stag u (evalMust u) = false) := by
  intro r
  induction r with
  | zero =>
    intro t
    by_cases he : evalMust t = []
    · rw [convergenceGo_empty evalMust stag 0 t he]
      constructor
      · rintro ⟨h, _⟩
        simp at h
      · rintro ⟨s, hts, hes, _, hall⟩
        rcases Nat.eq_or_lt_of_le hts with h | h
        · exact absurd (h ▸ he) hes
        · exact absurd he (fun _ => (hall t (le_refl t) h).1 he)
    · rw [convergenceGo_exhaust evalMust stag t he]
      exact ⟨fun _ => ⟨t, le_refl t, he, by omega, fun u hu1 hu2 => absurd hu2 (by omega)⟩,
             fun _ => ⟨rfl, rfl⟩⟩
  | succ r ih =>
    intro t
    by_cases he : evalMust t = []
    · rw [convergenceGo_empty evalMust stag (r + 1) t he]
      constructor
      · rintro ⟨h, _⟩
        simp at h
      · rintro ⟨s, hts, hes, _, hall⟩
        rcases Nat.eq_or_lt_of_le hts with h | h
        · exact absurd (h ▸ he) hes
        · exact absurd he (fun _ => (hall t (le_refl t) h).1 he)
    · by_cases hs : stag t (evalMust t) = true
      · rw [convergenceGo_stag evalMust stag r t he hs]
        constructor
        · rintro ⟨_, h⟩
          simp at h
        · rintro ⟨s, hts, hes, hbound, hall⟩
          rcases Nat.eq_or_lt_of_le hts with h | h
          · omega
          · have hc := (hall t (le_refl t) h).2.2
            rw [hs] at hc
            exact absurd hc (by decide)
      · have hs' : stag t (evalMust t) = false := by
          cases hb : stag t (evalMust t)
          · rfl
          · exact absurd hb hs
        rw [convergenceGo_step evalMust stag r t he hs', ih (t + 1)]
        constructor
        · rintro ⟨s, hts, hes, hbound, hall⟩
          refine ⟨s, by omega, hes, by omega, fun u hu1 hu2 => ?_⟩
          rcases Nat.eq_or_lt_of_le hu1 with h | h
          · exact h ▸ ⟨he, by omega, hs'⟩
          · obtain ⟨a, b, c⟩ := hall u (by omega) hu2
            exact ⟨a, by omega, c⟩
        · rintro ⟨s, hts, hes, hbound, hall⟩
          refine ⟨s, by omega, hes, by omega, fun u hu1 hu2 => ?_⟩
          obtain ⟨a, b, c⟩ := hall u (by omega) hu2
          exact ⟨a, by omega, c⟩

end VCC

namespace VCC

/-- C1.  Termination law of the convergence engine: a run reports
SUCCESS exactly when some reached iteration has an empty failing-MUST
set (every earlier iteration continuing: failing, within budget, not
stagnant); it reports FAILURE with reason `max_passes` exactly when a
reached iteration has a non-empty failing-MUST set with the iteration
budget exhausted; and an empty failing-MUST set at the current
iteration yields SUCCESS immediately, before any resource-exhaustion
check, regardless of the remaining budget. -/
theorem convergence_termination_law (evalMust : Nat → List String)
    (stag : Nat → List String → Bool) (maxIterations t : Nat) :
    ((convergenceRun evalMust stag maxIterations t).status = .success ↔
      ∃ s, t ≤ s ∧ evalMust s = [] ∧
        ∀ u, t ≤ u → u < s → runContinues evalMust stag maxIterations u)
    ∧ (((convergenceRun evalMust stag maxIterations t).status = .failure ∧
        (convergenceRun evalMust stag maxIterations t).reason = .maxPasses) ↔
      ∃ s, t ≤ s ∧ evalMust s ≠ [] ∧ maxIterations ≤ s ∧
        ∀ u, t ≤ u → u < s → runContinues evalMust stag maxIterations u)
    ∧ (evalMust t = [] →
        convergenceRun evalMust stag maxIterations t =
          ⟨.success, .criteriaSatisfied, []⟩) := by
  refine ⟨?_, ?_, ?_⟩
  · rw [convergenceRun, convergenceGo_success_iff]
    constructor
    · rintro ⟨s, h1, h2, h3⟩
      refine ⟨s, h1, h2, fun u hu1 hu2 => ?_⟩
      obtain ⟨a, b, c⟩ := h3 u hu1 hu2
      exact ⟨a, by omega, c⟩
    · rintro ⟨s, h1, h2, h3⟩
      refine ⟨s, h1, h2, fun u hu1 hu2 => ?_⟩
      obtain ⟨a, b, c⟩ := h3 u hu1 hu2
      exact ⟨a, by omega, c⟩
  · rw [convergenceRun, convergenceGo_maxPasses_iff]
    constructor
    · rintro ⟨s, h1, h2, hb, h3⟩
      refine ⟨s, h1, h2, by omega, fun u hu1 hu2 => ?_⟩
      obtain ⟨a, b, c⟩ := h3 u hu1 hu2
      exact ⟨a, by omega, c⟩
    · rintro ⟨s, h1, h2, hb, h3⟩
      refine ⟨s, h1, h2, by omega, fun u hu1 hu2 => ?_⟩
      obtain ⟨a, b, c⟩ := h3 u hu1 hu2
      exact ⟨a, by omega, c⟩
  · intro he
    rw [convergenceRun]
    exact convergenceGo_empty evalMust stag (maxIterations - t) t he

/-- Witness for C1: with a zero iteration budget and all MUST criteria
passing at the first evaluation, the engine still reports SUCCESS. -/
theorem convergence_termination_law_witness :
    (fun (_ : Nat) => ([] : List String)) 1 = [] ∧
    convergenceRun (fun _ => []) (fun _ _ => false) 0 1 =
      ⟨.success, .criteriaSatisfied, []⟩ :=
  ⟨rfl, (convergence_termination_law (fun _ => []) (fun _ _ => false) 0 1).2.2 rfl⟩

end VCC

namespace VCC

end VCC

namespace VCC

lemma exists_error_of_filter_ne (l : List IntegrityIssue)
    (h : ¬(l.filter (fun i => i.severity = .error)).isEmpty = true) :
    ∃ i ∈ l, i.severity = .error := by
  have hne : l.filter (fun i => i.severity = .error) ≠ [] := by
    intro hnil
    rw [hnil] at h
    simp at h
  obtain ⟨x, hx⟩ := List.exists_mem_of_ne_nil (l.filter (fun i => i.severity = .error)) hne
  rw [List.mem_filter] at hx
  exact ⟨x, hx.1, by simpa using hx.2⟩

lemma all_warning_of_filter_empty (l : List IntegrityIssue)
    (h : (l.filter (fun i => i.severity = .error)).isEmpty = true) :
    ∀ i ∈ l, i.severity = .warning := by
  intro i hi
  rw [List.isEmpty_iff] at h
  have hni := List.filter_eq_nil_iff.mp h i hi
  cases hsev : i.severity
  · simp [hsev] at hni
  · rfl

/-- C2.  Integrity checking is all-or-nothing: `specIntegrityPass`
either returns a result whose issue list holds only warnings, or fails
with an issue list containing at least one error-severity issue — i.e.
it raises exactly when some found issue has severity `error`. -/
theorem specIntegrityPass_atomic (inputSpec : VCCSpec) (ctx : RunContext)
    (registry : AdapterRegistry) (opts : IntegrityOptions) :
    (∀ issueList, specIntegrityPass inputSpec ctx registry opts = .error issueList →
      ∃ i ∈ issueList, i.severity = .error)
    ∧ (∀ res, specIntegrityPass inputSpec ctx registry opts = .ok res →
      ∀ i ∈ res.issues, i.severity = .warning) := by
  constructor
  · intro issueList h
    by_cases hempty : inputSpec.artifacts.isEmpty
    · rw [specIntegrityPass, if_pos hempty] at h
      injection h with h2
      subst h2
      exact ⟨artifactsEmptyIssue, by simp, rfl⟩
    · rw [specIntegrityPass, if_neg hempty] at h
      simp only [] at h
      split at h <;> split at h
      all_goals first
        | exact Except.noConfusion h
        | (rename_i hne
           injection h with h2
           subst h2
           exact exists_error_of_filter_ne _ hne)
  · intro res h
    by_cases hempty : inputSpec.artifacts.isEmpty
    · rw [specIntegrityPass, if_pos hempty] at h
      exact Except.noConfusion h
    · rw [specIntegrityPass, if_neg hempty] at h
      simp only [] at h
      split at h <;> split at h
      all_goals first
        | exact Except.noConfusion h
        | (rename_i hyes
           injection h with h2
           subst h2
           exact all_warning_of_filter_empty _ hyes)

/-- Witness for C2: a contract with zero artifacts fails with the
`ARTIFACTS_EMPTY` error issue. -/
theorem specIntegrityPass_atomic_witness :
    (specIntegrityPass
        { vccVersion := "sdlaf.vcc/v1", id := "w", title := "w", artifacts := [],
          acceptance := [], packaging := [],
          provenancePolicy := { policyId := "p", require := [], strength := "basic" } }
        {} { validators := [] } {} = .error [artifactsEmptyIssue])
    ∧ ∃ i ∈ [artifactsEmptyIssue], i.severity = .error := by
  constructor
  · rfl
  · exact (specIntegrityPass_atomic
      { vccVersion := "sdlaf.vcc/v1", id := "w", title := "w", artifacts := [],
        acceptance := [], packaging := [],
        provenancePolicy := { policyId := "p", require := [], strength := "basic" } }
      {} { validators := [] } {}).1 [artifactsEmptyIssue] rfl

end VCC

namespace VCC

/-! ### Example fixtures used by witnesses and counterexamples -/

def exArtifact : ArtifactSpec :=
  { artifactId := "a1"
    kind := "specification"
    formats := [{ mediaType := "text/markdown", uri := "mem://a1" }]
    required := true
    owners := ["role:Author"] }

def exPolicy : ProvenancePolicySpec :=
  { policyId := "pp", require := ["inputs.enumerated"], strength := "basic" }

/-- A minimal well-formed contract: one required spec-like artifact, no
packaging steps, no user acceptance criteria. -/
def exSpecBase : VCCSpec :=
  { vccVersion := "sdlaf.vcc/v1", id := "ex", title := "ex"
    artifacts := [exArtifact], acceptance := [], packaging := []
    provenancePolicy := exPolicy }

/-! ### C8: idempotence of defaults injection -/

/-- C8.  Defaults injection decides presence by id membership, not
blind append: on a contract already carrying the default rubric ids and
the four universal acceptance-criterion ids, a second injection changes
nothing. -/
theorem inject_defaults_idempotent (spec : VCCSpec)
    (h1 : ((spec.rubrics.getD []).map (·.rubricId)).contains "RUBRIC-OVERALL-v1" = true)
    (h2 : ((spec.rubrics.getD []).map (·.rubricId)).contains "RUBRIC-CLARITY-v1" = true)
    (h3 : (spec.acceptance.map (·.acId)).contains "AC-UNIV-STRUCT-1" = true)
    (h4 : (spec.acceptance.map (·.acId)).contains "AC-UNIV-TRACE-1" = true)
    (h5 : (spec.acceptance.map (·.acId)).contains "AC-UNIV-CONSIST-1" = true)
    (h6 : (spec.acceptance.map (·.acId)).contains "AC-UNIV-PROV-1" = true) :
    injectDefaultRubrics spec = spec ∧
      ∀ pat, injectDefaultAcceptance spec pat = spec := by
  obtain ⟨v, idf, tit, summ, arts, rel, acc, rub, g, pk, d, pp, rc⟩ := spec
  refine ⟨?_, ?_⟩
  · cases rub with
    | none => simp at h1
    | some l =>
      simp only [injectDefaultRubrics]
      rw [if_pos h1, if_pos h2]
      rfl
  · intro pat
    simp only [injectDefaultAcceptance]
    rw [if_pos h3, if_pos h4, if_pos h5, if_pos h6]

def exSpecC8 : VCCSpec := injectDefaultAcceptance (injectDefaultRubrics exSpecBase) none

/-- Witness for C8: the normalized example contract absorbs a second
injection unchanged. -/
theorem inject_defaults_idempotent_witness :
    (((exSpecC8.rubrics.getD []).map (·.rubricId)).contains "RUBRIC-OVERALL-v1" = true
      ∧ ((exSpecC8.rubrics.getD []).map (·.rubricId)).contains "RUBRIC-CLARITY-v1" = true
      ∧ (exSpecC8.acceptance.map (·.acId)).contains "AC-UNIV-STRUCT-1" = true
      ∧ (exSpecC8.acceptance.map (·.acId)).contains "AC-UNIV-TRACE-1" = true
      ∧ (exSpecC8.acceptance.map (·.acId)).contains "AC-UNIV-CONSIST-1" = true
      ∧ (exSpecC8.acceptance.map (·.acId)).contains "AC-UNIV-PROV-1" = true)
    ∧ injectDefaultRubrics exSpecC8 = exSpecC8
    ∧ injectDefaultAcceptance exSpecC8 none = exSpecC8 := by
  refine ⟨by decide, ?_, ?_⟩
  · exact (inject_defaults_idempotent exSpecC8 (by decide) (by decide) (by decide) (by decide)
      (by decide) (by decide)).1
  · exact (inject_defaults_idempotent exSpecC8 (by decide) (by decide) (by decide) (by decide)
      (by decide) (by decide)).2 none

end VCC

namespace VCC

/-- C6.  The provenance validator fails (never skips) when the context
supplies no signal map, and otherwise passes exactly when every
required signal name maps to `true` in the context's signal map. -/
theorem provenance_pass_iff_signals (ac : AcceptanceCriterionSpec) (spec : VCCSpec)
    (ctx : RunContext) :
    (ctx.provenanceSignals = none → (provenanceValidate ac spec ctx).status = .fail)
    ∧ (∀ sig, ctx.provenanceSignals = some sig →
        ((provenanceValidate ac spec ctx).status = .pass ↔
          ∀ r ∈ ac.rule.require.getD [], provSignalValue sig r = true)) := by
  constructor
  · intro h
    simp only [provenanceValidate, h]
  · intro sig h
    simp only [provenanceValidate, h]
    split
    · rename_i hcond
      simp only []
      constructor
      · intro _ r hr
        have hni := List.filter_eq_nil_iff.mp (List.isEmpty_iff.mp hcond) r hr
        simpa using hni
      · intro _
        trivial
    · rename_i hcond
      constructor
      · intro hp
        simp at hp
      · intro hall
        exfalso
        have hne : (ac.rule.require.getD []).filter (fun r => !provSignalValue sig r) ≠ [] := by
          intro hnil
          exact hcond (by simp [hnil])
        obtain ⟨x, hx⟩ := List.exists_mem_of_ne_nil
          ((ac.rule.require.getD []).filter (fun r => !provSignalValue sig r)) hne
        rw [List.mem_filter] at hx
        have hxt := hall x hx.1
        rw [hxt] at hx
        simp at hx

def exAcProv : AcceptanceCriterionSpec :=
  { acId := "AC-P"
    targetArtifacts := ["a1"]
    type := .provenance
    severity := .must
    rule := { require := some ["inputs.enumerated"] }
    evidence := { required := true, evidenceType := .auto } }

/-- Witness for C6: with no signal map in the context the provenance
validator fails. -/
theorem provenance_pass_iff_signals_witness :
    ({} : RunContext).provenanceSignals = none ∧
      (provenanceValidate exAcProv exSpecBase {}).status = .fail :=
  ⟨rfl, (provenance_pass_iff_signals exAcProv exSpecBase {}).1 rfl⟩

end VCC

namespace VCC

/-- C10.  A consistency criterion whose targets yield fewer than two
readable texts always passes: contradiction signals are only produced
between at least two readable artifacts. -/
theorem consistency_single_readable_passes (ac : AcceptanceCriterionSpec) (spec : VCCSpec)
    (ctx : RunContext) (h : (collectReadableTexts ac spec ctx).length ≤ 1) :
    (consistencyValidate ac spec ctx).status = .pass := by
  have hlen : ((collectReadableTexts ac spec ctx).map (·.1)).length < 2 := by
    rw [List.length_map]
    omega
  have hsig : findContradictionSignals (collectReadableTexts ac spec ctx) = [] := by
    simp only [findContradictionSignals]
    rw [if_pos hlen]
  simp [consistencyValidate, hsig]

def exAcConsist : AcceptanceCriterionSpec :=
  { acId := "AC-C"
    targetArtifacts := ["a1"]
    type := .consistency
    severity := .must
    rule := {}
    evidence := { required := true, evidenceType := .aiJudged } }

def exCtxRead : RunContext :=
  { readText := fun _ => .ok "Line one. See the plan.\n# Out of Scope\n- everything else" }

/-- Witness for C10: one readable target, consistency passes. -/
theorem consistency_single_readable_passes_witness :
    (collectReadableTexts exAcConsist exSpecBase exCtxRead).length ≤ 1 ∧
      (consistencyValidate exAcConsist exSpecBase exCtxRead).status = .pass :=
  ⟨by decide, consistency_single_readable_passes exAcConsist exSpecBase exCtxRead (by decide)⟩

end VCC

namespace VCC

lemma foldl_min_coverage_iff (b : Rat) :
    ∀ (l : List CoverageEntry) (a : Rat),
      b ≤ l.foldl (fun m x => min m x.coverage) a ↔ b ≤ a ∧ ∀ x ∈ l, b ≤ x.coverage := by
  intro l
  induction l with
  | nil =>
    intro a
    simp
  | cons x xs ih =>
    intro a
    rw [List.foldl_cons, ih (min a x.coverage), le_min_iff]
    constructor
    · rintro ⟨⟨h1, h2⟩, h3⟩
      refine ⟨h1, fun y hy => ?_⟩
      rcases List.mem_cons.mp hy with hy | hy
      · exact hy ▸ h2
      · exact h3 y hy
    · rintro ⟨h1, h2⟩
      exact ⟨⟨h1, h2 x (List.mem_cons_self x xs)⟩,
             fun y hy => h2 y (List.mem_cons_of_mem x hy)⟩

lemma coverageEntries_ok (regexTest : String → String → Bool) (pat : String)
    (spec : VCCSpec) (ctx : RunContext) (texts : String → String) :
    ∀ l, (∀ aid ∈ l, readArtifactText spec ctx aid = .ok (texts aid)) →
      coverageEntries regexTest pat spec ctx l = .ok (l.map (fun aid =>
        { artifactId := aid
          coverage := ((citationStats regexTest pat (texts aid)).1 : Rat) /
            ((citationStats regexTest pat (texts aid)).2 : Rat)
          cited := (citationStats regexTest pat (texts aid)).1
          total := (citationStats regexTest pat (texts aid)).2 })) := by
  intro l
  induction l with
  | nil =>
    intro _
    rfl
  | cons aid rest ih =>
    intro h
    simp only [coverageEntries]
    rw [h aid (List.mem_cons_self aid rest), ih (fun x hx => h x (List.mem_cons_of_mem aid hx))]
    rfl

/-- C7.  The traceability validator computes per-artifact coverage as
cited chunks over total chunks with the total clamped to at least 1,
and (when every target reads successfully) passes exactly when the
worst per-artifact coverage — the minimum, also capped by the initial
accumulator 1 — meets the configured minimum: every single target must
reach the threshold. -/
theorem traceability_worst_coverage (regexTest : String → String → Bool)
    (ac : AcceptanceCriterionSpec) (spec : VCCSpec) (ctx : RunContext)
    (texts : String → String)
    (hread : ∀ aid ∈ ac.targetArtifacts, readArtifactText spec ctx aid = .ok (texts aid)) :
    (∃ res, traceabilityValidate regexTest ac spec ctx = .ok res ∧
      (res.status = .pass ↔
        (traceMinCoverage ac ≤ 1 ∧
          ∀ aid ∈ ac.targetArtifacts,
            traceMinCoverage ac ≤ citationCoverage regexTest (tracePatternSource ac) (texts aid))))
    ∧ (∀ text, 1 ≤ (citationStats regexTest (tracePatternSource ac) text).2) := by
  have hce := coverageEntries_ok regexTest (tracePatternSource ac) spec ctx texts
    ac.targetArtifacts hread
  constructor
  · simp only [traceabilityValidate]
    rw [hce]
    refine ⟨_, rfl, ?_⟩
    have hiff : (traceMinCoverage ac ≤
        (ac.targetArtifacts.map (fun aid =>
          ({ artifactId := aid
             coverage := ((citationStats regexTest (tracePatternSource ac) (texts aid)).1 : Rat) /
               ((citationStats regexTest (tracePatternSource ac) (texts aid)).2 : Rat)
             cited := (citationStats regexTest (tracePatternSource ac) (texts aid)).1
             total := (citationStats regexTest (tracePatternSource ac) (texts aid)).2 }
            : CoverageEntry))).foldl (fun m x => min m x.coverage) 1) ↔
        (traceMinCoverage ac ≤ 1 ∧
          ∀ aid ∈ ac.targetArtifacts,
            traceMinCoverage ac ≤ citationCoverage regexTest (tracePatternSource ac) (texts aid)) := by
      rw [foldl_min_coverage_iff]
      constructor
      · rintro ⟨h1, h2⟩
        exact ⟨h1, fun aid ha => h2 _ (List.mem_map_of_mem _ ha)⟩
      · rintro ⟨h1, h2⟩
        refine ⟨h1, fun x hx => ?_⟩
        obtain ⟨aid, ha, rfl⟩ := List.mem_map.mp hx
        exact h2 aid ha
    cases hD : decide (traceMinCoverage ac ≤
        (ac.targetArtifacts.map (fun aid =>
          ({ artifactId := aid
             coverage := ((citationStats regexTest (tracePatternSource ac) (texts aid)).1 : Rat) /
               ((citationStats regexTest (tracePatternSource ac) (texts aid)).2 : Rat)
             cited := (citationStats regexTest (tracePatternSource ac) (texts aid)).1
             total := (citationStats regexTest (tracePatternSource ac) (texts aid)).2 }
            : CoverageEntry))).foldl (fun m x => min m x.coverage) 1) with
    | true =>
      exact ⟨fun _ => hiff.mp (of_decide_eq_true hD), fun _ => rfl⟩
    | false =>
      constructor
      · intro hst
        exact VStatus.noConfusion hst
      · intro hr
        exact absurd (hiff.mpr hr) (of_decide_eq_false hD)
  · intro text
    simp only [citationStats]
    exact le_max_left 1 _

end VCC

namespace VCC

def exTraceText : String := "See [plan](p) here.\nUNSOURCED guess."

def exRegexTest : String → String → Bool := fun _pat s => containsSub s "]("

def exAcTrace : AcceptanceCriterionSpec :=
  { acId := "AC-T"
    targetArtifacts := ["a1"]
    type := .traceability
    severity := .should
    rule := { minCitationCoverage := some 1 }
    evidence := { required := true, evidenceType := .auto } }

def exCtxTrace : RunContext := { readText := fun _ => .ok exTraceText }

/-- Witness for C7 at a one-target criterion whose read succeeds. -/
theorem traceability_worst_coverage_witness :
    (∀ aid ∈ exAcTrace.targetArtifacts,
        readArtifactText exSpecBase exCtxTrace aid = .ok ((fun _ => exTraceText) aid))
    ∧ ((∃ res, traceabilityValidate exRegexTest exAcTrace exSpecBase exCtxTrace = .ok res ∧
        (res.status = .pass ↔
          (traceMinCoverage exAcTrace ≤ 1 ∧
            ∀ aid ∈ exAcTrace.targetArtifacts,
              traceMinCoverage exAcTrace ≤
                citationCoverage exRegexTest (tracePatternSource exAcTrace)
                  ((fun _ => exTraceText) aid))))
      ∧ (∀ text, 1 ≤ (citationStats exRegexTest (tracePatternSource exAcTrace) text).2)) :=
  ⟨by
    intro aid ha
    have hone : aid = "a1" := by simpa [exAcTrace] using ha
    subst hone
    rfl,
   traceability_worst_coverage exRegexTest exAcTrace exSpecBase exCtxTrace
      (fun _ => exTraceText) (by
        intro aid ha
        have hone : aid = "a1" := by simpa [exAcTrace] using ha
        subst hone
        rfl)⟩

end VCC

namespace VCC

/-- C3 counterexample.  On a contract with one required artifact and no
packaging steps, `specIntegrityPass` succeeds and the injected
provenance criterion `AC-UNIV-PROV-1` is a MUST with an empty
target-artifact set — the "first required artifact" fallback applies
only to the structural default, not to the provenance default. -/
theorem injected_prov_must_empty_targets_cex :
    ((specIntegrityPass exSpecBase {} { validators := [] }
        { requireMustCoverage := some false }).toOption.map (fun r =>
      (r.spec.acceptance.filter (fun a => a.acId = "AC-UNIV-PROV-1")).map
        (fun a => (a.severity, a.targetArtifacts)))) = some [(Severity.must, [])] := by
  decide

lemma findLikelySpecArtifacts_ne_nil (spec : VCCSpec) (hart : spec.artifacts ≠ []) :
    findLikelySpecArtifacts spec ≠ [] := by
  rw [findLikelySpecArtifacts]
  split
  · rename_i hreq
    match harts : spec.artifacts with
    | [] => exact absurd harts hart
    | a :: rest => simp
  · rename_i r rest hreq
    simp only []
    split
    · simp
    · rename_i hids
      intro hnil
      rw [hnil] at hids
      simp at hids

lemma mem_ite_append (l : List AcceptanceCriterionSpec) (x y : AcceptanceCriterionSpec)
    (c : Bool) (hx : x ∈ l) : x ∈ (if c = true then l else l ++ [y]) := by
  split
  · exact hx
  · exact List.mem_append_left _ hx

/-- C3 amended.  When the universal defaults are injected into a
contract with at least one artifact and without the default ids: the
structural MUST `AC-UNIV-STRUCT-1` is injected with a non-empty target
set (falling back to the first required — or first — artifact), while
the provenance MUST `AC-UNIV-PROV-1` is injected with target set equal
to the concatenated packaging inputs, which is empty exactly when no
packaging step lists an input. -/
theorem injected_defaults_target_sets (spec : VCCSpec) (pat : Option String)
    (hart : spec.artifacts ≠ [])
    (hstruct : (spec.acceptance.map (·.acId)).contains "AC-UNIV-STRUCT-1" = false)
    (hprov : (spec.acceptance.map (·.acId)).contains "AC-UNIV-PROV-1" = false) :
    (univStructCriterion spec ∈ (injectDefaultAcceptance spec pat).acceptance
      ∧ (univStructCriterion spec).severity = .must
      ∧ (univStructCriterion spec).targetArtifacts ≠ [])
    ∧ (univProvCriterion spec ∈ (injectDefaultAcceptance spec pat).acceptance
      ∧ (univProvCriterion spec).severity = .must
      ∧ (univProvCriterion spec).targetArtifacts = spec.packaging.flatMap (·.inputs)) := by
  have hmem1 : univStructCriterion spec ∈ spec.acceptance ++ [univStructCriterion spec] :=
    List.mem_append_right _ (List.mem_singleton_self _)
  refine ⟨⟨?_, rfl, findLikelySpecArtifacts_ne_nil spec hart⟩, ⟨?_, rfl, rfl⟩⟩
  · simp only [injectDefaultAcceptance, hstruct, hprov, Bool.false_eq_true, if_false]
    exact List.mem_append_left _ (mem_ite_append _ _ _ _ (mem_ite_append _ _ _ _ hmem1))
  · simp only [injectDefaultAcceptance, hstruct, hprov, Bool.false_eq_true, if_false]
    exact List.mem_append_right _ (List.mem_singleton_self _)

/-- Witness for C3's amended statement on the example contract. -/
theorem injected_defaults_target_sets_witness :
    (exSpecBase.artifacts ≠ []
      ∧ (exSpecBase.acceptance.map (·.acId)).contains "AC-UNIV-STRUCT-1" = false
      ∧ (exSpecBase.acceptance.map (·.acId)).contains "AC-UNIV-PROV-1" = false)
    ∧ ((univStructCriterion exSpecBase ∈ (injectDefaultAcceptance exSpecBase none).acceptance
      ∧ (univStructCriterion exSpecBase).severity = .must
      ∧ (univStructCriterion exSpecBase).targetArtifacts ≠ [])
    ∧ (univProvCriterion exSpecBase ∈ (injectDefaultAcceptance exSpecBase none).acceptance
      ∧ (univProvCriterion exSpecBase).severity = .must
      ∧ (univProvCriterion exSpecBase).targetArtifacts =
          exSpecBase.packaging.flatMap (·.inputs))) :=
  ⟨⟨by decide, rfl, rfl⟩,
   injected_defaults_target_sets exSpecBase none (by decide) rfl rfl⟩

end VCC

namespace VCC

lemma mustCoverageIssue_severity (registry : AdapterRegistry) (spec : VCCSpec)
    (ctx : RunContext) (ac : AcceptanceCriterionSpec) :
    ∀ i, mustCoverageIssue registry spec ctx ac = some i → i.severity = .error := by
  intro i h
  unfold mustCoverageIssue at h
  simp only [] at h
  split at h
  · split at h
    · exact Option.noConfusion h
    · injection h with h2
      subst h2
      rfl
  · split at h
    · injection h with h2
      subst h2
      rfl
    · split at h
      · exact Option.noConfusion h
      · injection h with h2
        subst h2
        rfl

lemma mustCoverageIssues_severity (registry : AdapterRegistry) (spec : VCCSpec)
    (ctx : RunContext) :
    ∀ i ∈ mustCoverageIssues registry spec ctx, i.severity = .error := by
  intro i hi
  unfold mustCoverageIssues at hi
  obtain ⟨a, _, ha⟩ := List.mem_filterMap.mp hi
  exact mustCoverageIssue_severity registry spec ctx a i ha

/-- C4.  The MUST-coverage proof obligation: with an explicitly named
adapter, the check succeeds exactly when a registered validator carries
that id (else the error `EXPLICIT_VALIDATOR_MISSING`); with no named
adapter, an error `NO_VALIDATOR_FOR_TYPE` or `UNVERIFIABLE_MUST` is
produced exactly when no registered validator both supports the
criterion's type and has a readiness check returning `true` (a throwing
check counting as not accepting); and whenever coverage checking is on
and produces any issue for the post-injection contract,
`specIntegrityPass` raises. -/
theorem must_coverage_obligation (registry : AdapterRegistry) (spec : VCCSpec)
    (ctx : RunContext) (ac : AcceptanceCriterionSpec) :
    (∀ a, ac.rule.adapter = some a →
      ((mustCoverageIssue registry spec ctx ac = none ↔
          ∃ v ∈ registry.validators, v.id = a)
        ∧ ∀ i, mustCoverageIssue registry spec ctx ac = some i →
            i.code = "EXPLICIT_VALIDATOR_MISSING"))
    ∧ (ac.rule.adapter = none →
      ((∃ i, mustCoverageIssue registry spec ctx ac = some i ∧
          (i.code = "NO_VALIDATOR_FOR_TYPE" ∨ i.code = "UNVERIFIABLE_MUST")) ↔
        ¬∃ v ∈ registry.validators,
          v.supportedTypes.contains ac.type = true ∧ v.canValidate ac spec ctx = some true))
    ∧ (∀ inputSpec opts,
        opts.requireMustCoverage.getD true = true →
        mustCoverageIssues registry (injectPhase (normalizePhase inputSpec ctx).1 opts) ctx ≠ [] →
        ∃ issueList, specIntegrityPass inputSpec ctx registry opts = .error issueList) := by
  refine ⟨?_, ?_, ?_⟩
  · intro a ha
    simp only [mustCoverageIssue, ha]
    cases hany : registry.validators.any (fun v => v.id = a) with
    | true =>
      constructor
      · exact ⟨fun _ => by simpa using List.any_eq_true.mp hany, fun _ => rfl⟩
      · intro i h
        exact Option.noConfusion h
    | false =>
      constructor
      · constructor
        · intro h
          exact Option.noConfusion h
        · intro hex
          exfalso
          obtain ⟨v, hv, he⟩ := hex
          have hh : registry.validators.any (fun v => v.id = a) = true :=
            List.any_eq_true.mpr ⟨v, hv, by simpa using he⟩
          rw [hany] at hh
          exact Bool.noConfusion hh
      · intro i h
        injection h with h2
        subst h2
        rfl
  · intro ha
    simp only [mustCoverageIssue, ha]
    cases hempty : (registry.validators.filter
        (fun v => v.supportedTypes.contains ac.type)).isEmpty with
    | true =>
      constructor
      · intro _
        rintro ⟨v, hv, hsup, _⟩
        have hvf : v ∈ registry.validators.filter (fun v => v.supportedTypes.contains ac.type) :=
          List.mem_filter.mpr ⟨hv, hsup⟩
        rw [List.isEmpty_iff.mp hempty] at hvf
        exact absurd hvf (List.not_mem_nil v)
      · intro _
        exact ⟨_, rfl, Or.inl rfl⟩
    | false =>
      cases hacc : (registry.validators.filter
          (fun v => v.supportedTypes.contains ac.type)).any
            (fun v => v.canValidate ac spec ctx = some true) with
      | true =>
        constructor
        · rintro ⟨i, hi, _⟩
          exact Option.noConfusion hi
        · intro hno
          exfalso
          obtain ⟨v, hvf, hcan⟩ := List.any_eq_true.mp hacc
          have hm := List.mem_filter.mp hvf
          exact hno ⟨v, hm.1, hm.2, by simpa using hcan⟩
      | false =>
        constructor
        · intro _
          rintro ⟨v, hv, hsup, hcan⟩
          have hh : (registry.validators.filter
              (fun v => v.supportedTypes.contains ac.type)).any
                (fun v => v.canValidate ac spec ctx = some true) = true :=
            List.any_eq_true.mpr ⟨v, List.mem_filter.mpr ⟨hv, hsup⟩, by simpa using hcan⟩
          rw [hacc] at hh
          exact Bool.noConfusion hh
        · intro _
          exact ⟨_, rfl, Or.inr rfl⟩
  · intro inputSpec opts hcov hne
    by_cases hempty : inputSpec.artifacts.isEmpty
    · exact ⟨[artifactsEmptyIssue], by rw [specIntegrityPass, if_pos hempty]⟩
    · obtain ⟨x, hx⟩ := List.exists_mem_of_ne_nil _ hne
      have hxerr := mustCoverageIssues_severity registry
        (injectPhase (normalizePhase inputSpec ctx).1 opts) ctx x hx
      have hfil : ¬(((normalizePhase inputSpec ctx).2.1 ++
          mustCoverageIssues registry (injectPhase (normalizePhase inputSpec ctx).1 opts) ctx).filter
            (fun i => i.severity = .error)).isEmpty = true := by
        intro habs
        have hw := all_warning_of_filter_empty _ habs x (List.mem_append_right _ hx)
        rw [hxerr] at hw
        exact IssueSeverity.noConfusion hw
      refine ⟨(normalizePhase inputSpec ctx).2.1 ++
        mustCoverageIssues registry (injectPhase (normalizePhase inputSpec ctx).1 opts) ctx, ?_⟩
      rw [specIntegrityPass, if_neg hempty]
      simp only []
      rw [if_pos hcov, if_neg hfil]

def emptyRegistry : AdapterRegistry := { validators := [] }

def exAcAdapter : AcceptanceCriterionSpec :=
  { acId := "AC-X"
    targetArtifacts := ["a1"]
    type := .custom
    severity := .must
    rule := { adapter := some "custom.vX" }
    evidence := { required := true, evidenceType := .auto } }

/-- Witness for C4: a MUST criterion naming an unregistered adapter is
flagged exactly because no validator carries that id. -/
theorem must_coverage_obligation_witness :
    exAcAdapter.rule.adapter = some "custom.vX" ∧
      (mustCoverageIssue emptyRegistry exSpecBase {} exAcAdapter = none ↔
        ∃ v ∈ emptyRegistry.validators, v.id = "custom.vX") :=
  ⟨rfl, ((must_coverage_obligation emptyRegistry exSpecBase {} exAcAdapter).1
      "custom.vX" rfl).1⟩

end VCC

namespace VCC

def exRubric : RubricSpec :=
  { rubricId := "RUBRIC-1"
    scale := [1, 2, 3, 4, 5]
    anchors := [("5", "great")]
    passThreshold := 4 }

def exSpecC5 : VCCSpec := { exSpecBase with rubrics := some [exRubric] }

def exAcRubric : AcceptanceCriterionSpec :=
  { acId := "AC-R"
    targetArtifacts := ["a1"]
    type := .rubricType
    severity := .must
    rule := { rubricRef := some "RUBRIC-1", passThreshold := some 4 }
    evidence := { required := true, evidenceType := .aiJudged } }

/-- A judge that scores 5 exactly when it was handed the
rubric-not-found fallback string together with empty content, and 1
otherwise. -/
def exJudge : AiJudgeArgs → AiJudgeScore := fun args =>
  if args.rubricText = "Rubric RUBRIC-1 not found in spec." ∧ args.content = "" then
    { score := 5, rationale := "received fallback rubric text and empty content" }
  else
    { score := 1, rationale := "received real rubric text or real content" }

def exCtxC5 : RunContext :=
  { aiJudge := some exJudge
    readText := fun _ => .ok "real artifact content" }

/-- C5.  With no judge configured the rubric validator skips, as
claimed; but with a judge configured the source does not pass the
resolved rubric's text and the first target's content: `rubric?.text`
reads a field `RubricSpec` does not declare (always yielding the
"not found" fallback string even though `RUBRIC-1` resolves here), and
`safeReadText` calls `readArtifactText(ctx, uri)` against the
`(spec, ctx, artifactId)` signature, swallowing the resulting
`TypeError` and yielding `""` even though the target is readable.  A
judge that scores 5 only on exactly those broken inputs makes the
criterion pass. -/
theorem rubric_judge_receives_fallback_inputs :
    ((exSpecC5.rubrics.getD []).any (fun r => r.rubricId = "RUBRIC-1") = true)
    ∧ (rubricAiJudgeValidate exAcRubric exSpecC5
        { readText := fun _ => .ok "real artifact content" }).status = .skip
    ∧ (rubricAiJudgeValidate exAcRubric exSpecC5 exCtxC5).status = .pass := by
  refine ⟨by decide, by decide, by decide⟩

end VCC
